import Mathlib

/-!
Verification of the dashi analytics dashboard's data-fetching layer.

The definitions below are a shallow embedding of the TypeScript source:
the paginated fetcher (`fetchAllUsers` in the `useUserData` hook), the
aggregators and the session-detail assembler in `src/utils/dataFetchers.ts`,
and the date-filter plumbing in `src/hooks/useAnalytics.ts`.  The remote
Supabase table is modelled as the ordered list of rows matching the query's
filter; a page request returns the slice `[offset, offset + fetchSize)` of
that list, exactly as PostgREST's `range` does on a consistently ordered
query.  Remote failures are modelled by a predicate saying which request
indices fail.
-/

namespace Dashi

/-- Page size used by every pagination loop in the source (`const fetchSize = 1000`). -/
def fetchSize : Nat := 1000

/-- One remote page request: the rows in `[offset, offset + fetchSize)` of the
ordered matching row set, as returned by `.range(offset, offset + fetchSize - 1)`. -/
def fetchPage (rows : List α) (offset : Nat) : List α :=
  (rows.drop offset).take fetchSize

/-- The `while (hasMore)` loop of `fetchAllUsers` (and its clones in the same
hook): issue a page request; on error throw (modelled as `none`); otherwise
append the page, advance `offset` by `data.length`, and continue exactly when
the page length equals `fetchSize`.  `req` numbers the requests so that
`failAt` can make a chosen request fail.  Returns the accumulated rows and the
number of requests issued. -/
def fetchLoop (rows : List α) (failAt : Nat → Bool) (offset req : Nat) :
    Option (List α × Nat) :=
  if failAt req then
    none
  else
    if h : (fetchPage rows offset).length = fetchSize then
      match fetchLoop rows failAt (offset + (fetchPage rows offset).length) (req + 1) with
      | none => none
      | some (rest, n) => some (fetchPage rows offset ++ rest, n + 1)
    else
      some (fetchPage rows offset, 1)
termination_by rows.length - offset
decreasing_by
  simp only [fetchPage, List.length_take, List.length_drop] at h ⊢
  simp only [fetchSize] at h ⊢
  omega

/-- The surrounding `try`/`catch` of `fetchAllUsers`: a thrown page error is
caught, the error flag is set, and the empty list is returned; on success the
accumulated rows are returned with the flag clear. -/
def fetchAllUsers (rows : List α) (failAt : Nat → Bool) : List α × Bool :=
  match fetchLoop rows failAt 0 0 with
  | some (users, _) => (users, false)
  | none => ([], true)

lemma take_append_drop_len (l : List α) (n : Nat) :
    l.take n ++ l.drop (l.take n).length = l := by
  rw [List.length_take]
  rcases Nat.le_total n l.length with h | h
  · rw [Nat.min_eq_left h, List.take_append_drop]
  · rw [Nat.min_eq_right h, List.drop_length, List.take_of_length_le h, List.append_nil]

lemma fetchPage_append_drop (rows : List α) (offset : Nat) :
    fetchPage rows offset ++ rows.drop (offset + (fetchPage rows offset).length)
      = rows.drop offset := by
  rw [← List.drop_drop]
  exact take_append_drop_len (rows.drop offset) fetchSize

lemma fetchPage_len_lt (rows : List α) (offset : Nat)
    (h : ¬ (fetchPage rows offset).length = fetchSize) :
    fetchPage rows offset = rows.drop offset
      ∧ (rows.length - offset) / fetchSize = 0 := by
  have hlen : (fetchPage rows offset).length = min fetchSize (rows.length - offset) := by
    simp [fetchPage]
  have hlt : rows.length - offset < fetchSize := by
    rw [hlen] at h
    omega
  refine ⟨?_, Nat.div_eq_of_lt hlt⟩
  simp only [fetchPage]
  exact List.take_of_length_le (by simp; omega)

lemma fetchPage_len_eq (rows : List α) (offset : Nat)
    (h : (fetchPage rows offset).length = fetchSize) :
    (rows.length - offset) / fetchSize + 1
      = (rows.length - (offset + (fetchPage rows offset).length)) / fetchSize + 1 + 1 := by
  have hlen : (fetchPage rows offset).length = min fetchSize (rows.length - offset) := by
    simp [fetchPage]
  rw [h] at hlen ⊢
  simp only [fetchSize] at hlen ⊢
  omega

/-- On a failure-free run, the loop started at `offset` returns every matching
row from `offset` on, in order, and issues `⌊(N - offset)/fetchSize⌋ + 1`
page requests. -/
lemma fetchLoop_noFail (rows : List α) (offset req : Nat) :
    fetchLoop rows (fun _ => false) offset req
      = some (rows.drop offset, (rows.length - offset) / fetchSize + 1) := by
  rw [fetchLoop.eq_def]
  rw [if_neg (by simp)]
  by_cases h : (fetchPage rows offset).length = fetchSize
  · rw [dif_pos h]
    rw [fetchLoop_noFail rows (offset + (fetchPage rows offset).length) (req + 1)]
    dsimp only
    rw [fetchPage_append_drop, fetchPage_len_eq rows offset h]
  · rw [dif_neg h]
    rw [(fetchPage_len_lt rows offset h).2]
    rw [(fetchPage_len_lt rows offset h).1]
termination_by rows.length - offset
decreasing_by
  simp only [fetchPage, List.length_take, List.length_drop] at h ⊢
  simp only [fetchSize] at h ⊢
  omega

/-- If the loop returns at all, it returns exactly the matching rows from
`offset` on, with the exact request count: there is no partial result. -/
lemma fetchLoop_ok_eq (rows : List α) (failAt : Nat → Bool) (offset req : Nat)
    (p : List α × Nat) (hp : fetchLoop rows failAt offset req = some p) :
    p = (rows.drop offset, (rows.length - offset) / fetchSize + 1) := by
  rw [fetchLoop.eq_def] at hp
  by_cases hf : failAt req
  · rw [if_pos hf] at hp
    exact absurd hp (by simp)
  · rw [if_neg hf] at hp
    by_cases h : (fetchPage rows offset).length = fetchSize
    · rw [dif_pos h] at hp
      cases hrec : fetchLoop rows failAt (offset + (fetchPage rows offset).length) (req + 1) with
      | none =>
        rw [hrec] at hp
        exact absurd hp (by simp)
      | some q =>
        obtain ⟨rest, n⟩ := q
        rw [hrec] at hp
        dsimp only at hp
        have hq := fetchLoop_ok_eq rows failAt (offset + (fetchPage rows offset).length)
          (req + 1) (rest, n) hrec
        rw [Prod.mk.injEq] at hq
        obtain rfl : (fetchPage rows offset ++ rest, n + 1) = p := Option.some.inj hp
        rw [hq.1, hq.2, fetchPage_append_drop, ← fetchPage_len_eq rows offset h]
    · rw [dif_neg h] at hp
      obtain rfl : (fetchPage rows offset, 1) = p := Option.some.inj hp
      rw [(fetchPage_len_lt rows offset h).2]
      rw [(fetchPage_len_lt rows offset h).1]
termination_by rows.length - offset
decreasing_by
  simp only [fetchPage, List.length_take, List.length_drop] at h ⊢
  simp only [fetchSize] at h ⊢
  omega

/-- On any run, the loop either throws or returns exactly the matching rows
from `offset` on: a run that fails mid-way never surfaces a partial
accumulation. -/
lemma fetchLoop_all_or_nothing (rows : List α) (failAt : Nat → Bool) (offset req : Nat) :
    fetchLoop rows failAt offset req = none
      ∨ fetchLoop rows failAt offset req
          = some (rows.drop offset, (rows.length - offset) / fetchSize + 1) := by
  cases hv : fetchLoop rows failAt offset req with
  | none => exact Or.inl rfl
  | some p =>
    right
    rw [fetchLoop_ok_eq rows failAt offset req p hv]

/-- C1: for every backing row set (N = 0, N = fetchSize, N = fetchSize + 1
included), the failure-free pagination loop of `fetchAllUsers` terminates
(`fetchLoop` is a total function), returns exactly the N matching rows in
order, issues exactly `⌊N/fetchSize⌋ + 1 ≤ ⌈N/fetchSize⌉ + 1` page requests,
and stops exactly when a page is shorter than `fetchSize` (the loop's guard). -/
theorem fetchAllUsers_returns_all_rows (rows : List α) :
    fetchAllUsers rows (fun _ => false) = (rows, false)
      ∧ fetchLoop rows (fun _ => false) 0 0
          = some (rows, rows.length / fetchSize + 1)
      ∧ rows.length / fetchSize + 1 ≤ (rows.length + fetchSize - 1) / fetchSize + 1 := by
  have hloop := fetchLoop_noFail rows 0 0
  simp only [List.drop_zero, Nat.sub_zero] at hloop
  refine ⟨?_, hloop, ?_⟩
  · simp [fetchAllUsers, hloop]
  · have h : rows.length / fetchSize ≤ (rows.length + fetchSize - 1) / fetchSize :=
      Nat.div_le_div_right (by simp only [fetchSize]; omega)
    omega

/-- C9: a `fetchAllUsers` run never returns a proper partial accumulation:
whenever the error flag is set the returned row list is empty, and every run
returns either `([], error)` or the complete row set with no error. -/
theorem fetchAllUsers_discards_partial_on_error (rows : List α) (failAt : Nat → Bool) :
    ((fetchAllUsers rows failAt).2 = true → (fetchAllUsers rows failAt).1 = [])
      ∧ (fetchAllUsers rows failAt = ([], true)
          ∨ fetchAllUsers rows failAt = (rows, false)) := by
  rcases fetchLoop_all_or_nothing rows failAt 0 0 with h | h
  · simp [fetchAllUsers, h]
  · simp only [List.drop_zero] at h
    simp [fetchAllUsers, h]

/-- Concrete instance of C9: with every request failing, a three-row table
yields the empty list and the error flag. -/
theorem fetchAllUsers_discards_partial_on_error_witness :
    (fetchAllUsers [1, 2, 3] (fun _ => true)).2 = true
      ∧ (fetchAllUsers [1, 2, 3] (fun _ => true)).1 = [] := by
  have hflag : (fetchAllUsers [1, 2, 3] (fun _ => true)).2 = true := by
    unfold fetchAllUsers
    rw [fetchLoop.eq_def]
    simp
  exact ⟨hflag, (fetchAllUsers_discards_partial_on_error [1, 2, 3] (fun _ => true)).1 hflag⟩

/-! ### fetchAnalyticsEvents query construction (`dataFetchers.ts`)

Each filter is applied to the query builder only when the corresponding field
is truthy in JavaScript, so `undefined`, `null`, `""` and `0` all skip the
corresponding builder call.  The issued query is modelled as the list of
builder steps. -/

/-- JS truthiness of an optional string field (`undefined`/`null`/`""` are falsy). -/
def truthyStr : Option String → Bool
  | none => false
  | some s => s != ""

/-- JS truthiness of an optional numeric field (`undefined`/`null`/`0` are falsy). -/
def truthyNum : Option Nat → Bool
  | none => false
  | some n => n != 0

/-- One call in a Supabase query-builder chain. -/
inductive QueryStep where
  | eq (col : String) (val : Option String)
  | gte (col : String) (val : Option String)
  | lte (col : String) (val : Option String)
  | notNull (col : String)
  | limit (n : Nat)
  | range (lo hi : Nat)
  | order (col : String) (ascending : Bool)
deriving DecidableEq

/-- The filter descriptor accepted by `fetchAnalyticsEvents`. -/
structure EventFilters where
  userId : Option String := none
  eventType : Option String := none
  eventCategory : Option String := none
  eventAction : Option String := none
  startDate : Option String := none
  endDate : Option String := none
  limit : Option Nat := none
  offset : Option Nat := none

/-- The query issued by `fetchAnalyticsEvents`: each condition is appended when
its filter field is truthy; `limit`/`offset` use JS truthiness, and the range
end uses `filters.offset + (filters.limit || 50) - 1`. -/
def fetchAnalyticsEvents (f : EventFilters) : List QueryStep :=
  (if truthyStr f.userId then [.eq "user_id" f.userId] else [])
    ++ (if truthyStr f.eventType then [.eq "event_type" f.eventType] else [])
    ++ (if truthyStr f.eventCategory then [.eq "event_category" f.eventCategory] else [])
    ++ (if truthyStr f.eventAction then [.eq "event_action" f.eventAction] else [])
    ++ (if truthyStr f.startDate then [.gte "created_at" f.startDate] else [])
    ++ (if truthyStr f.endDate then [.lte "created_at" f.endDate] else [])
    ++ (if truthyNum f.limit then [.limit (f.limit.getD 0)] else [])
    ++ (if truthyNum f.offset then
          [.range (f.offset.getD 0)
            (f.offset.getD 0 + (if truthyNum f.limit then f.limit.getD 0 else 50) - 1)]
        else [])
    ++ [.order "created_at" false]

/-- C10: pagination values equal to zero are indistinguishable from absent
ones: `fetchAnalyticsEvents` issues the same query for `limit = 0` or
`offset = 0` as for the same descriptor with the field omitted, so offset 0
cannot be requested explicitly and limit 0 does not restrict the result. -/
theorem fetchAnalyticsEvents_zero_pagination_ignored (f : EventFilters) :
    fetchAnalyticsEvents { f with limit := some 0 }
        = fetchAnalyticsEvents { f with limit := none }
      ∧ fetchAnalyticsEvents { f with offset := some 0 }
          = fetchAnalyticsEvents { f with offset := none }
      ∧ fetchAnalyticsEvents { f with limit := some 0, offset := some 0 }
          = fetchAnalyticsEvents { f with limit := none, offset := none } := by
  refine ⟨?_, ?_, ?_⟩ <;> simp [fetchAnalyticsEvents, truthyNum]

/-! ### fetchEventCountsByType (`dataFetchers.ts`)

The aggregation `eventCounts[event.event_type] = (eventCounts[event.event_type] || 0) + 1`
over a plain JS object, whose non-numeric string keys iterate in insertion
order, is modelled as an association list that appends a new key at the end.
`Object.entries(...).map(...)` then yields the summaries in that key order;
the source applies no sort to them. -/

/-- Processing one row: increment the type's counter, creating it at the end
of the object on first sight. -/
def bump : List (String × Nat) → String → List (String × Nat)
  | [], t => [(t, 1)]
  | (k, v) :: rest, t => if k = t then (k, v + 1) :: rest else (k, v) :: bump rest t

/-- The value of `fetchEventCountsByType` on the fetched `event_type` column. -/
def fetchEventCountsByType (events : List String) : List (String × Nat) :=
  events.foldl bump []

/-- The lookup `eventCounts[t] || 0`. -/
def getCount (m : List (String × Nat)) (t : String) : Nat :=
  match m.find? (fun p => p.1 == t) with
  | some p => p.2
  | none => 0

/-- First-occurrence order of the distinct elements of a list: the key
iteration order of a JS object built by insertion. -/
def firstOccur (l : List String) : List String :=
  l.foldl (fun acc t => if t ∈ acc then acc else acc ++ [t]) []

/-- Whether a summary sequence is sorted descending by its count field. -/
def sortedDescByCount : List (String × Nat) → Bool
  | [] => true
  | [_] => true
  | p :: q :: rest => decide (q.2 ≤ p.2) && sortedDescByCount (q :: rest)

lemma keys_bump (m : List (String × Nat)) (t : String) :
    (bump m t).map Prod.fst
      = if t ∈ m.map Prod.fst then m.map Prod.fst else m.map Prod.fst ++ [t] := by
  induction m with
  | nil => simp [bump]
  | cons q rest ih =>
    obtain ⟨k, v⟩ := q
    by_cases hk : k = t
    · subst hk
      simp [bump]
    · simp only [bump, if_neg hk, List.map_cons, ih]
      by_cases hmem : t ∈ rest.map Prod.fst
      · simp [hmem, Ne.symm hk]
      · simp [hmem, Ne.symm hk]

lemma sum_bump (m : List (String × Nat)) (t : String) :
    ((bump m t).map Prod.snd).sum = (m.map Prod.snd).sum + 1 := by
  induction m with
  | nil => simp [bump]
  | cons q rest ih =>
    obtain ⟨k, v⟩ := q
    by_cases hk : k = t
    · subst hk
      simp [bump]
      omega
    · simp only [bump, if_neg hk, List.map_cons, List.sum_cons, ih]
      omega

lemma getCount_bump_self (m : List (String × Nat)) (t : String) :
    getCount (bump m t) t = getCount m t + 1 := by
  induction m with
  | nil => simp [bump, getCount]
  | cons q rest ih =>
    obtain ⟨k, v⟩ := q
    by_cases hk : k = t
    · subst hk
      simp [bump, getCount, List.find?]
    · simp only [bump, if_neg hk]
      simp only [getCount, List.find?_cons] at ih ⊢
      have hbeq : (k == t) = false := by
        simp [hk]
      simp only [hbeq]
      exact ih

lemma getCount_bump_other (m : List (String × Nat)) (t s : String) (hne : s ≠ t) :
    getCount (bump m t) s = getCount m s := by
  induction m with
  | nil =>
    have hbeq : (t == s) = false := by
      simp [Ne.symm hne]
    simp [bump, getCount, List.find?, hbeq]
  | cons q rest ih =>
    obtain ⟨k, v⟩ := q
    by_cases hk : k = t
    · subst hk
      have hbeq : (k == s) = false := by
        simp [Ne.symm hne]
      simp [bump, getCount, List.find?, hbeq]
    · simp only [bump, if_neg hk]
      simp only [getCount, List.find?_cons] at ih ⊢
      by_cases hks : k = s
      · subst hks
        simp
      · have hbeq : (k == s) = false := by
          simp [hks]
        simp only [hbeq]
        exact ih

lemma keys_foldl_bump (l : List String) (m : List (String × Nat)) :
    ((l.foldl bump m).map Prod.fst)
      = l.foldl (fun acc t => if t ∈ acc then acc else acc ++ [t]) (m.map Prod.fst) := by
  induction l generalizing m with
  | nil => rfl
  | cons t rest ih =>
    simp only [List.foldl_cons, ih, keys_bump]

lemma sum_foldl_bump (l : List String) (m : List (String × Nat)) :
    ((l.foldl bump m).map Prod.snd).sum = (m.map Prod.snd).sum + l.length := by
  induction l generalizing m with
  | nil => simp
  | cons t rest ih =>
    simp only [List.foldl_cons, ih, sum_bump, List.length_cons]
    omega

lemma getCount_foldl_bump (l : List String) (m : List (String × Nat)) (t : String) :
    getCount (l.foldl bump m) t = getCount m t + l.count t := by
  induction l generalizing m with
  | nil => simp
  | cons s rest ih =>
    simp only [List.foldl_cons, ih, List.count_cons]
    by_cases hst : s = t
    · subst hst
      simp [getCount_bump_self]
      omega
    · rw [getCount_bump_other m s t (Ne.symm hst)]
      simp [beq_iff_eq, hst]

lemma mem_foldl_insertNew (l : List String) (acc : List String) (t : String) :
    t ∈ l.foldl (fun acc t => if t ∈ acc then acc else acc ++ [t]) acc
      ↔ t ∈ acc ∨ t ∈ l := by
  induction l generalizing acc with
  | nil => simp
  | cons s rest ih =>
    simp only [List.foldl_cons, ih, List.mem_cons]
    by_cases hs : s ∈ acc
    · simp only [if_pos hs]
      constructor
      · tauto
      · rintro (h | h | h) <;> first | tauto | (subst h; tauto)
    · simp only [if_neg hs, List.mem_append, List.mem_singleton]
      tauto

lemma nodup_foldl_insertNew (l : List String) (acc : List String) (hacc : acc.Nodup) :
    (l.foldl (fun acc t => if t ∈ acc then acc else acc ++ [t]) acc).Nodup := by
  induction l generalizing acc with
  | nil => exact hacc
  | cons s rest ih =>
    simp only [List.foldl_cons]
    by_cases hs : s ∈ acc
    · rw [if_pos hs]
      exact ih acc hacc
    · rw [if_neg hs]
      refine ih _ ?_
      simp [List.nodup_append, hacc, hs]

lemma getCount_mem (m : List (String × Nat)) (hm : (m.map Prod.fst).Nodup)
    (p : String × Nat) (hp : p ∈ m) : getCount m p.1 = p.2 := by
  induction m with
  | nil => cases hp
  | cons q rest ih =>
    obtain ⟨k, v⟩ := q
    rcases List.mem_cons.mp hp with rfl | hp'
    · simp [getCount, List.find?]
    · by_cases hk : k = p.1
      · exfalso
        have : p.1 ∈ rest.map Prod.fst := List.mem_map.mpr ⟨p, hp', rfl⟩
        rw [List.map_cons, List.nodup_cons] at hm
        exact hm.1 (hk ▸ this)
      · have hbeq : (k == p.1) = false := by
          simp [hk]
        simp only [getCount, List.find?_cons, hbeq] at ih ⊢
        rw [List.map_cons, List.nodup_cons] at hm
        exact ih hm.2 hp'

/-- C5 (amended): `fetchEventCountsByType` returns exactly one entry per
distinct event type, in first-occurrence order of the types; each entry's
count is that type's number of input rows and the counts sum to the total
input row count.  (The source applies no sort to this sequence.) -/
theorem fetchEventCountsByType_grouping (events : List String) :
    ((fetchEventCountsByType events).map Prod.fst).Nodup
      ∧ (fetchEventCountsByType events).map Prod.fst = firstOccur events
      ∧ (∀ t, t ∈ (fetchEventCountsByType events).map Prod.fst ↔ t ∈ events)
      ∧ (∀ p ∈ fetchEventCountsByType events, p.2 = events.count p.1)
      ∧ ((fetchEventCountsByType events).map Prod.snd).sum = events.length := by
  have hkeys : (fetchEventCountsByType events).map Prod.fst = firstOccur events := by
    rw [fetchEventCountsByType, keys_foldl_bump]
    rfl
  have hnodup : ((fetchEventCountsByType events).map Prod.fst).Nodup := by
    rw [hkeys]
    exact nodup_foldl_insertNew events [] List.nodup_nil
  refine ⟨hnodup, hkeys, ?_, ?_, ?_⟩
  · intro t
    rw [hkeys, firstOccur, mem_foldl_insertNew]
    simp
  · intro p hp
    have := getCount_mem (fetchEventCountsByType events) hnodup p hp
    rw [fetchEventCountsByType, getCount_foldl_bump] at this
    simpa [getCount] using this.symm
  · rw [fetchEventCountsByType, sum_foldl_bump]
    simp

/-- C5 counterexample: on input types `["a", "b", "b"]` the returned sequence
is `[("a", 1), ("b", 2)]`, which is not sorted descending by count. -/
theorem fetchEventCountsByType_not_sorted_cex :
    fetchEventCountsByType ["a", "b", "b"] = [("a", 1), ("b", 2)]
      ∧ sortedDescByCount (fetchEventCountsByType ["a", "b", "b"]) = false := by
  refine ⟨by decide, by decide⟩

/-! ### Ratio fields and the realtime window (`dataFetchers.ts`)

The three ratio fields are the source expressions
`campaign.uniqueDays.size > 0 ? (campaign.events / campaign.uniqueDays.size).toFixed(1) : '0'`,
`page.uniqueUsers.size > 0 ? (page.visits / page.uniqueUsers.size).toFixed(1) : '0'` and
`events.length > 0 ? (events.length / minutesBack).toFixed(1) : '0'`.
All numerators and denominators are integer counters, so JS division is exact
rational division except for the zero-denominator cases, which give
`Infinity` (positive numerator) or `NaN` (0/0). -/

/-- A JS number obtained by dividing two nonnegative integer counters. -/
inductive JsNum where
  | nan
  | inf
  | val (q : ℚ)

/-- JS division of two nonnegative integer counters. -/
def jsDiv (a b : Nat) : JsNum :=
  if b = 0 then (if a = 0 then .nan else .inf) else .val ((a : ℚ) / (b : ℚ))

/-- Rendering with `.toFixed(1)`: a finite nonnegative value is rounded to one
decimal place (half away from zero; double-precision rounding artifacts on the
last digit are outside the model); `Infinity` and `NaN` render as their names. -/
def toFixed1 : JsNum → String
  | .nan => "NaN"
  | .inf => "Infinity"
  | .val q =>
    let n := (⌊q * 10 + 1 / 2⌋).toNat
    toString (n / 10) ++ "." ++ toString (n % 10)

/-- `avgEventsPerDay` field of `fetchCampaignAnalytics`: guarded on the
denominator `uniqueDays.size`. -/
def avgEventsPerDay (events uniqueDays : Nat) : String :=
  if uniqueDays > 0 then toFixed1 (jsDiv events uniqueDays) else "0"

/-- `avgVisitsPerUser` field of `fetchPagePerformance`: guarded on the
denominator `uniqueUsers.size`. -/
def avgVisitsPerUser (visits uniqueUsers : Nat) : String :=
  if uniqueUsers > 0 then toFixed1 (jsDiv visits uniqueUsers) else "0"

/-- `eventsPerMinute` field of `fetchRealtimeAnalytics`: the guard is
`events.length > 0` — the numerator — while the denominator is `minutesBack`. -/
def eventsPerMinute (totalEvents minutesBack : Nat) : String :=
  if totalEvents > 0 then toFixed1 (jsDiv totalEvents minutesBack) else "0"

/-- An analytics event row, restricted to the columns the aggregators read. -/
structure EventRow where
  user_id : String
  session_id : Option String
  event_type : String
  page_path : Option String
  page_section : Option String
  created_at : Nat
deriving DecidableEq

/-- The view-model produced by `fetchRealtimeAnalytics` (the fields the claims
concern; `recentEvents` and `timeRange` are direct copies). -/
structure RealtimeStats where
  totalEvents : Nat
  uniqueActiveUsers : Nat
  eventTypes : List String
  eventsPerMinute : String
deriving DecidableEq

/-- `fetchRealtimeAnalytics`: the remote query keeps events with
`created_at >= now - minutesBack * 60 * 1000`; the aggregation then counts
rows, distinct users and distinct types (JS `Set` iterates in insertion
order) and computes the `eventsPerMinute` ratio. -/
def fetchRealtimeAnalytics (allEvents : List EventRow) (now minutesBack : Nat) :
    RealtimeStats :=
  let events := allEvents.filter (fun e => now - minutesBack * 60 * 1000 ≤ e.created_at)
  { totalEvents := events.length
    uniqueActiveUsers := (firstOccur (events.map (fun e => e.user_id))).length
    eventTypes := firstOccur (events.map (fun e => e.event_type))
    eventsPerMinute := eventsPerMinute events.length minutesBack }

/-- C7 (amended): the campaign and page ratio fields are guarded on their
denominators and render `"0"` on a zero denominator, and render the exact
division to one decimal place otherwise; `eventsPerMinute` is instead guarded
on the event count, so it renders `"0"` whenever there are no events but
renders `"Infinity"` for a zero-length window containing events. -/
theorem ratio_fields_rendering (e d v u n m : Nat) :
    avgEventsPerDay e 0 = "0"
      ∧ avgVisitsPerUser v 0 = "0"
      ∧ eventsPerMinute 0 m = "0"
      ∧ (0 < d → avgEventsPerDay e d = toFixed1 (jsDiv e d))
      ∧ (0 < u → avgVisitsPerUser v u = toFixed1 (jsDiv v u))
      ∧ (0 < n → 0 < m → eventsPerMinute n m = toFixed1 (jsDiv n m))
      ∧ (0 < n → eventsPerMinute n 0 = "Infinity") := by
  refine ⟨rfl, rfl, rfl, ?_, ?_, ?_, ?_⟩
  · intro hd
    simp [avgEventsPerDay, hd]
  · intro hu
    simp [avgVisitsPerUser, hu]
  · intro hn hm
    simp [eventsPerMinute, hn]
  · intro hn
    have hne : n ≠ 0 := Nat.pos_iff_ne_zero.mp hn
    simp [eventsPerMinute, hn, jsDiv, hne, toFixed1]

/-- Concrete instance of C7's amended statement. -/
theorem ratio_fields_rendering_witness :
    avgEventsPerDay 7 0 = "0"
      ∧ avgVisitsPerUser 4 2 = toFixed1 (jsDiv 4 2)
      ∧ eventsPerMinute 3 0 = "Infinity" :=
  ⟨(ratio_fields_rendering 7 0 0 0 3 0).1,
    (ratio_fields_rendering 0 0 4 2 3 0).2.2.2.2.1 (by decide),
    (ratio_fields_rendering 7 0 0 0 3 0).2.2.2.2.2.2 (by decide)⟩

/-- C7 counterexample: a realtime window of zero minutes containing one event
renders `eventsPerMinute` as `"Infinity"`, not `"0"`, although the
denominator is zero. -/
theorem eventsPerMinute_zero_denominator_cex :
    (fetchRealtimeAnalytics [⟨"u1", none, "page_view", none, none, 5⟩] 5 0).eventsPerMinute
        = "Infinity"
      ∧ (fetchRealtimeAnalytics [⟨"u1", none, "page_view", none, none, 5⟩] 5 0).eventsPerMinute
          ≠ "0" := by
  refine ⟨by decide, by decide⟩

/-! ### fetchPagePerformance (`dataFetchers.ts`)

The query selects `page_path, page_section, user_id, created_at, event_data`
(with `page_path` non-null), but the grouping step reads
`const path = event.event_path` — a column that was never selected.  The read
therefore yields JS `undefined` for every row, and every row lands in the one
object bucket keyed `undefined`. -/

/-- The read `event.event_path` on a row of this query's shape: the column is
absent from the select list, so the value is always `undefined`. -/
def eventPathRead (_e : EventRow) : Option String := none

/-- Accumulator per bucket of `fetchPagePerformance`'s `pageMap`. -/
structure PageAcc where
  path : Option String
  visits : Nat
  uniqueUsers : List String
  sections : List String
deriving DecidableEq

/-- `Set.add`: insert if absent (JS sets preserve insertion order). -/
def addUnique (l : List String) (s : String) : List String :=
  if s ∈ l then l else l ++ [s]

/-- The per-row update of a `pageMap` bucket: `visits++`,
`uniqueUsers.add(user_id)`, and `sections.add(page_section)` when the section
is truthy. -/
def pageAccUpd (a : PageAcc) (e : EventRow) : PageAcc :=
  { a with
    visits := a.visits + 1
    uniqueUsers := addUnique a.uniqueUsers e.user_id
    sections :=
      if truthyStr e.page_section then addUnique a.sections (e.page_section.getD "")
      else a.sections }

/-- Insert-or-update of `pageMap[path]` keyed on the (always-`undefined`)
grouping value read from the row. -/
def pageUpd : List (Option String × PageAcc) → Option String → EventRow →
    List (Option String × PageAcc)
  | [], p, e => [(p, pageAccUpd ⟨p, 0, [], []⟩ e)]
  | (k, a) :: rest, p, e =>
    if k = p then (k, pageAccUpd a e) :: rest else (k, a) :: pageUpd rest p e

/-- One summary row of `fetchPagePerformance`'s result. -/
structure PageSummary where
  path : Option String
  visits : Nat
  uniqueUsers : Nat
  sections : List String
  avgVisitsPerUser : String
deriving DecidableEq

/-- Insertion step of the final `sort((a, b) => b.visits - a.visits)`. -/
def insertByVisitsDesc (s : PageSummary) : List PageSummary → List PageSummary
  | [] => [s]
  | x :: xs => if x.visits < s.visits then s :: x :: xs else x :: insertByVisitsDesc s xs

/-- Descending sort by `visits` of the page summaries. -/
def sortByVisitsDesc (l : List PageSummary) : List PageSummary :=
  l.foldr insertByVisitsDesc []

/-- `fetchPagePerformance`: group by the value read as the page path, then map
each bucket to its summary and sort by visits descending. -/
def fetchPagePerformance (events : List EventRow) : List PageSummary :=
  let m := events.foldl (fun m e => pageUpd m (eventPathRead e) e) []
  sortByVisitsDesc (m.map fun kv =>
    { path := kv.2.path
      visits := kv.2.visits
      uniqueUsers := kv.2.uniqueUsers.length
      sections := kv.2.sections
      avgVisitsPerUser := avgVisitsPerUser kv.2.visits kv.2.uniqueUsers.length })

/-- C2: two events on distinct page paths are nevertheless merged into a
single summary keyed `undefined` with the combined visit count, because the
grouping reads the unselected `event_path` field instead of `page_path`. -/
theorem fetchPagePerformance_single_undefined_bucket :
    (fetchPagePerformance
        [⟨"u1", none, "page_view", some "/a", none, 1⟩,
         ⟨"u2", none, "page_view", some "/b", none, 2⟩]).length = 1
      ∧ (([some "/a", some "/b"] : List (Option String)).dedup).length = 2
      ∧ (fetchPagePerformance
          [⟨"u1", none, "page_view", some "/a", none, 1⟩,
           ⟨"u2", none, "page_view", some "/b", none, 2⟩]).map (fun s => s.path)
          = [none]
      ∧ (fetchPagePerformance
          [⟨"u1", none, "page_view", some "/a", none, 1⟩,
           ⟨"u2", none, "page_view", some "/b", none, 2⟩]).map (fun s => s.visits)
          = [2] := by
  refine ⟨by decide, by decide, by decide, by decide⟩

/-! ### Date-filter plumbing (`useAnalytics.ts`)

`getFilterDates` maps a filter mode to a `(startDate, endDate)` pair — for
`custom` it passes the caller's bounds through unchanged, `null`s included.
The users, traffic-sources and page-analytics fetches guard the two date
conditions with `if (startDate && endDate)`; the event-analytics fetch
instead always passes `{ start: startDate, end: endDate }` — a truthy object
even when both fields are `null` — to `fetchEventCountsByType`, whose guard
is `if (dateRange)`.  The derived `Date` strings for the `daily` and
`lastMonth` modes are abstracted into an environment. -/

/-- The three date-filter modes. -/
inductive FilterType where
  | daily
  | lastMonth
  | custom
deriving DecidableEq

/-- The ISO strings the source derives from `new Date()` for the non-custom
modes. -/
structure DateEnv where
  nowIso : String
  yesterdayIso : String
  lastMonthIso : String

/-- `getFilterDates`: `daily` is yesterday..now, `lastMonth` is one
calendar month ago..now, `custom` passes the caller's range through. -/
def getFilterDates (env : DateEnv) (ft : FilterType)
    (customRange : Option String × Option String) : Option String × Option String :=
  match ft with
  | .lastMonth => (some env.lastMonthIso, some env.nowIso)
  | .custom => customRange
  | .daily => (some env.yesterdayIso, some env.nowIso)

/-- The `if (startDate && endDate)` guard shared by the users, traffic and
page fetches: both bounds must be truthy for the two conditions to be added. -/
def dateConds (d : Option String × Option String) : List QueryStep :=
  if truthyStr d.1 && truthyStr d.2 then
    [.gte "created_at" d.1, .lte "created_at" d.2]
  else
    []

/-- Date-independent part of the `fetchUsers` query. -/
def usersBaseQuery : List QueryStep := []

/-- Date-independent part of the `fetchTrafficSources` query. -/
def trafficBaseQuery : List QueryStep := [.notNull "utm_source"]

/-- Date-independent part of the `fetchPageAnalytics` query. -/
def pageBaseQuery : List QueryStep := [.notNull "page_path"]

/-- The query issued by the hook's `fetchUsers`. -/
def fetchUsersQuery (env : DateEnv) (ft : FilterType)
    (c : Option String × Option String) : List QueryStep :=
  usersBaseQuery ++ dateConds (getFilterDates env ft c)

/-- The query issued by the hook's `fetchTrafficSources`. -/
def fetchTrafficSourcesQuery (env : DateEnv) (ft : FilterType)
    (c : Option String × Option String) : List QueryStep :=
  trafficBaseQuery ++ dateConds (getFilterDates env ft c)

/-- The query issued by the hook's `fetchPageAnalytics`. -/
def fetchPageAnalyticsQuery (env : DateEnv) (ft : FilterType)
    (c : Option String × Option String) : List QueryStep :=
  pageBaseQuery ++ dateConds (getFilterDates env ft c)

/-- The date conditions `fetchEventCountsByType` adds: its parameter is
optional and the guard is `if (dateRange)`, so any provided object — even one
with `null` fields — adds both conditions with the fields' values. -/
def eventCountsQuery (dateRange : Option (Option String × Option String)) :
    List QueryStep :=
  match dateRange with
  | none => []
  | some d => [.gte "created_at" d.1, .lte "created_at" d.2]

/-- The query issued via the hook's `fetchEventAnalytics`, which always calls
`fetchEventCountsByType({ start: startDate, end: endDate })`. -/
def fetchEventAnalyticsQuery (env : DateEnv) (ft : FilterType)
    (c : Option String × Option String) : List QueryStep :=
  eventCountsQuery (some (getFilterDates env ft c))

/-- A concrete date environment for closed instances. -/
def demoEnv : DateEnv :=
  ⟨"2026-10-11T00:00:00.000Z", "2026-10-10T00:00:00.000Z", "2026-09-11T00:00:00.000Z"⟩

/-- C3 (amended): in `custom` mode with one or both bounds missing, the user
list, traffic-sources and page-analytics fetches add no date condition — each
issues exactly its unfiltered base query, hence returns the same rows in the
same order; the event-analytics fetch is the exception recorded by the
counterexample. -/
theorem custom_missing_bounds_unfiltered (env : DateEnv)
    (c : Option String × Option String) (h : c.1 = none ∨ c.2 = none) :
    fetchUsersQuery env .custom c = usersBaseQuery
      ∧ fetchTrafficSourcesQuery env .custom c = trafficBaseQuery
      ∧ fetchPageAnalyticsQuery env .custom c = pageBaseQuery := by
  have hd : dateConds c = [] := by
    rcases h with h | h <;>
      simp [dateConds, h, truthyStr]
  refine ⟨?_, ?_, ?_⟩ <;>
    simp [fetchUsersQuery, fetchTrafficSourcesQuery, fetchPageAnalyticsQuery,
      getFilterDates, hd]

/-- Concrete instance of C3's amended statement: `custom` with only an end
bound leaves the users query unfiltered. -/
theorem custom_missing_bounds_unfiltered_witness :
    fetchUsersQuery demoEnv .custom (none, some "2026-01-01T00:00:00.000Z")
      = usersBaseQuery :=
  (custom_missing_bounds_unfiltered demoEnv (none, some "2026-01-01T00:00:00.000Z")
    (Or.inl rfl)).1

/-- C3 counterexample: in `custom` mode with both bounds missing, the
event-analytics fetch does apply a date restriction — it issues
`gte created_at null` and `lte created_at null`, unlike the unfiltered
event-counts query. -/
theorem fetchEventAnalytics_custom_missing_bounds_cex :
    fetchEventAnalyticsQuery demoEnv .custom (none, none)
        = [.gte "created_at" none, .lte "created_at" none]
      ∧ fetchEventAnalyticsQuery demoEnv .custom (none, none) ≠ eventCountsQuery none := by
  refine ⟨by decide, by decide⟩

/-! ### fetchUserSessionEvents — the session detail assembler (`dataFetchers.ts`)

The assembler issues three queries: the session row (with its owning user
joined; `.single()`), the session's events (ordered ascending by
`created_at`), and the user's active subscription (`.single()`).  A
`.single()` call reports data exactly when the filtered row count is one and
otherwise reports the error code `PGRST116` with `null` data.  Failures of
the two secondary queries are injected through the `eventsFail`/`subFail`
flags (modelling network errors with some non-`PGRST116` code). -/

/-- The owning user as selected by the session query.  The remaining selected
profile columns are carried opaquely and never inspected by the assembler, so
only `id` (read for the subscription lookup) is modelled. -/
structure UserRow where
  id : String
deriving DecidableEq

/-- A row of `user_sessions` as stored. -/
structure SessionRow where
  id : String
  user_id : String
  started_at : Nat
  ended_at : Option Nat
  is_active : Bool
deriving DecidableEq

/-- The session query's select list: `id, started_at, users (...)` — note
that `ended_at` is not among the selected columns. -/
structure SelectedSession where
  id : String
  started_at : Nat
  users : UserRow
deriving DecidableEq

/-- A row of `subscriptions` restricted to the fields the assembler filters on
and passes through. -/
structure SubRow where
  user_id : String
  plan_id : String
  status : String
  is_trial : Bool
deriving DecidableEq

/-- The remote store the assembler queries.  `userOf` is the `users` join of
the session query; the schema's foreign key
`user_sessions.user_id REFERENCES users(id)` guarantees the joined row
exists. -/
structure Store where
  sessions : List SessionRow
  events : List EventRow
  subs : List SubRow
  userOf : String → UserRow

/-- Projection of a stored session onto the query's select list. -/
def selectSession (st : Store) (r : SessionRow) : SelectedSession :=
  ⟨r.id, r.started_at, st.userOf r.user_id⟩

/-- `.single()`: `(data, error)` with data exactly when the row count is one,
and the error code `PGRST116` otherwise. -/
def singleQ (rows : List α) : Option α × Option String :=
  match rows with
  | [r] => (some r, none)
  | _ => (none, some "PGRST116")

/-- The read `data.ended_at`: the session select list omits `ended_at`, so
the value is always `undefined`. -/
def endedAtRead (_d : SelectedSession) : Option Nat := none

/-- The duration formatting block, `${minutes}m ${seconds}s` over a
millisecond difference (dead in practice, because `endedAtRead` is always
`undefined`). -/
def formatDuration (startMs endMs : Nat) : String :=
  let durationMs := endMs - startMs
  toString (durationMs / 60000) ++ "m " ++ toString (durationMs % 60000 / 1000) ++ "s"

/-- Insertion step modelling the remote `order('created_at', ascending: true)`. -/
def insertAscByCreated (e : EventRow) : List EventRow → List EventRow
  | [] => [e]
  | x :: xs =>
    if e.created_at ≤ x.created_at then e :: x :: xs else x :: insertAscByCreated e xs

/-- Ascending sort of the session's events by `created_at`. -/
def sortAscByCreated (l : List EventRow) : List EventRow :=
  l.foldr insertAscByCreated []

/-- Insert-or-update of `pageVisitMap[page_path]`: `count++` and push
`lastVisited` forward on a strictly newer timestamp (a fresh bucket starts at
the row's own timestamp). -/
def visitUpd : List (String × Nat × Nat) → String → Nat → List (String × Nat × Nat)
  | [], p, ts => [(p, 1, ts)]
  | (k, c, lv) :: rest, p, ts =>
    if k = p then (k, c + 1, if lv < ts then ts else lv) :: rest
    else (k, c, lv) :: visitUpd rest p ts

/-- The `pageVisitMap` fold: rows with a truthy `page_path` are bucketed by
path. -/
def buildPageVisitMap (events : List EventRow) : List (String × Nat × Nat) :=
  events.foldl
    (fun m e =>
      if truthyStr e.page_path then visitUpd m (e.page_path.getD "") e.created_at else m)
    []

/-- One entry of the assembled `pageVisits`. -/
structure PageVisit where
  page_path : String
  visit_count : Nat
  last_visited : Nat
deriving DecidableEq

/-- The assembled `sessionStats`. -/
structure SessionStats where
  total_events : Nat
  session_duration : Option String
  unique_pages : Nat
deriving DecidableEq

/-- The assembled `SessionWithEvents` detail object. -/
structure SessionWithEvents where
  sessionId : String
  user : UserRow
  events : List EventRow
  createdAt : Nat
  subscription : Option SubRow
  pageVisits : List PageVisit
  sessionStats : SessionStats
deriving DecidableEq

/-- Insertion step of `pageVisits.sort((a, b) => b.visit_count - a.visit_count)`. -/
def insertByVisitCountDesc (v : PageVisit) : List PageVisit → List PageVisit
  | [] => [v]
  | x :: xs =>
    if x.visit_count < v.visit_count then v :: x :: xs else x :: insertByVisitCountDesc v xs

/-- Descending sort of the page visits by `visit_count`. -/
def sortByVisitCountDesc (l : List PageVisit) : List PageVisit :=
  l.foldr insertByVisitCountDesc []

/-- `fetchUserSessionEvents`.  The session query's error (any code, the
not-found `PGRST116` included) is routed through `handleSupabaseError`, which
throws — modelled as `Except.error` with the thrown label.  The
`if (!data) return null` branch is kept as written (`.ok none`), although
`.single()` never reports `null` data without also reporting an error.  Event
or subscription query errors are only logged: the assembly continues with
`eventsData || []` and a `null` subscription. -/
def fetchUserSessionEvents (st : Store) (eventsFail subFail : Bool) (sessionId : String) :
    Except String (Option SessionWithEvents) :=
  let res := singleQ ((st.sessions.filter (fun s => s.id == sessionId)).map (selectSession st))
  if res.2.isSome then
    .error ("Failed to fetch user session events for session " ++ sessionId)
  else
    match res.1 with
    | none => .ok none
    | some data =>
      let eventsData : Option (List EventRow) :=
        if eventsFail then none
        else some (sortAscByCreated (st.events.filter (fun e => e.session_id == some sessionId)))
      let events := eventsData.getD []
      let subscriptionData : Option SubRow :=
        if subFail then none
        else
          (singleQ (st.subs.filter
            (fun sb => sb.user_id == data.users.id && sb.status == "active"))).1
      let pvm := buildPageVisitMap events
      let sessionDuration : Option String :=
        match endedAtRead data with
        | some endMs => some (formatDuration data.started_at endMs)
        | none => none
      .ok (some
        { sessionId := data.id
          user := data.users
          events := events
          createdAt := data.started_at
          subscription := subscriptionData
          pageVisits := sortByVisitCountDesc (pvm.map (fun kv => ⟨kv.1, kv.2.1, kv.2.2⟩))
          sessionStats :=
            { total_events := events.length
              session_duration := sessionDuration
              unique_pages := pvm.length } })

/-- A store with no sessions at all. -/
def emptyStore : Store := ⟨[], [], [], fun i => ⟨i⟩⟩

/-- C4: a session id with no matching session makes `.single()` report
`PGRST116`, which `handleSupabaseError` turns into a thrown failure: the
assembler yields an error conflated with a remote failure, never the distinct
absent result its own `if (!data) return null` branch was written for. -/
theorem fetchUserSessionEvents_notFound_throws :
    fetchUserSessionEvents emptyStore false false "s1"
        = .error "Failed to fetch user session events for session s1"
      ∧ ∀ r, fetchUserSessionEvents emptyStore false false "s1" ≠ .ok r := by
  have h1 : fetchUserSessionEvents emptyStore false false "s1"
      = .error "Failed to fetch user session events for session s1" := by
    rfl
  refine ⟨h1, ?_⟩
  intro r hr
  rw [h1] at hr
  exact Except.noConfusion hr

/-- A store holding one session that has ended (150000 ms after it started). -/
def endedSessionStore : Store :=
  ⟨[⟨"s1", "u1", 0, some 150000, false⟩], [], [], fun i => ⟨i⟩⟩

/-- C6: even for a session whose stored `ended_at` is set, the assembled
detail has no `session_duration`: the select list omits `ended_at`, so the
duration branch — which would have rendered `"2m 30s"` here — never runs. -/
theorem fetchUserSessionEvents_duration_always_absent :
    endedSessionStore.sessions.map (fun s => s.ended_at) = [some 150000]
      ∧ formatDuration 0 150000 = "2m 30s"
      ∧ fetchUserSessionEvents endedSessionStore false false "s1"
          = .ok (some
              { sessionId := "s1"
                user := ⟨"u1"⟩
                events := []
                createdAt := 0
                subscription := none
                pageVisits := []
                sessionStats :=
                  { total_events := 0
                    session_duration := none
                    unique_pages := 0 } }) := by
  refine ⟨by decide, by decide, by rfl⟩

/-- C8: when the session query succeeds, the assembler returns an assembled
detail whatever the two secondary queries do: a failed event query degrades
to an empty event list, a successful one yields the session's full ordered
event list, and a failed (or empty) subscription lookup degrades to an absent
subscription — never an overall failure. -/
theorem fetchUserSessionEvents_degrades_gracefully (st : Store) (sid : String)
    (h : (st.sessions.filter (fun s => s.id == sid)).length = 1)
    (eventsFail subFail : Bool) :
    ∃ d, fetchUserSessionEvents st eventsFail subFail sid = .ok (some d)
      ∧ (eventsFail = true → d.events = [])
      ∧ (eventsFail = false →
          d.events = sortAscByCreated (st.events.filter (fun e => e.session_id == some sid)))
      ∧ (subFail = true → d.subscription = none) := by
  obtain ⟨r, hr⟩ := List.length_eq_one.mp h
  simp only [fetchUserSessionEvents, hr, List.map_cons, List.map_nil, singleQ,
    Option.isSome_none, Bool.false_eq_true, if_false]
  cases eventsFail <;> cases subFail <;>
    exact ⟨_, rfl, by simp, by simp, by simp⟩

/-- A store holding one session (with one event) for the C8 instance. -/
def oneSessionStore : Store :=
  ⟨[⟨"s1", "u1", 0, none, true⟩],
    [⟨"u1", some "s1", "page_view", some "/a", none, 5⟩], [], fun i => ⟨i⟩⟩

/-- Concrete instance of C8: both secondary queries failing still yields an
assembled detail with an empty event list and an absent subscription. -/
theorem fetchUserSessionEvents_degrades_gracefully_witness :
    (oneSessionStore.sessions.filter (fun s => s.id == "s1")).length = 1
      ∧ ∃ d, fetchUserSessionEvents oneSessionStore true true "s1" = .ok (some d)
          ∧ (true = true → d.events = [])
          ∧ (true = false →
              d.events = sortAscByCreated
                (oneSessionStore.events.filter (fun e => e.session_id == some "s1")))
          ∧ (true = true → d.subscription = none) :=
  ⟨by decide,
    fetchUserSessionEvents_degrades_gracefully oneSessionStore "s1" (by decide) true true⟩

end Dashi
